import Mathlib

/-!
Verification of the Kasane TypeScript client's encoding/decoding layer.

The development shallowly embeds the conversion utilities
(`convertDimensionRange`, `convertFromWasmDimensionRange`,
`convertSpaceTimeId`, `convertRange`, the three filter converters),
the command gateway (`executeCommand`, `isVersionInRange`) and the
`getValue` record decoder, and proves or refutes the specified
properties about them.

JavaScript runtime values that flow through these functions are
modelled by the inductive type `Val` (numbers, strings, booleans,
arrays, plain objects).  Functions that contain a `throw` statement in
the source are embedded with codomain `Except String _`; functions
with no reachable `throw` are embedded the same way so that claims
about raised errors are directly statable — every branch of such a
function returns `Except.ok`, mirroring the absence of `throw` in the
source.
-/

/-- A JavaScript/JSON runtime value.  Numbers are modelled as integers
(the version/coordinate data relevant to the claims is integral). -/
inductive Val where
  | num (n : Int)
  | str (s : String)
  | bool (b : Bool)
  | arr (xs : List Val)
  | obj (fields : List (String × Val))

/-- JavaScript truthiness of a defined value: `0`, `""` and `false`
are falsy; every array and object is truthy. -/
def truthy : Val → Bool
  | .num n => n != 0
  | .str s => s != ""
  | .bool b => b
  | .arr _ => true
  | .obj _ => true

/-- The `=== "-"` test applied to a runtime value. -/
def isDashV : Val → Bool
  | .str s => s == "-"
  | _ => false

/-- Wire-level dimension range, the codomain of `convertDimensionRange`
and the input of `convertFromWasmDimensionRange`.
`anyTag` is the bare string `"Any"`; `single v` is `{Single: v}`;
`limitRange a b` is `{LimitRange: [a, b]}`; `beforeUnLimit v` is
`{BeforeUnLimitRange: v}`; `afterUnLimit v` is `{AfterUnLimitRange: v}`.
`unknown tag payload` stands for any runtime wire value that carries
none of the five known tags (the decoder's fallback case). -/
inductive Wire where
  | anyTag
  | single (v : Val)
  | limitRange (a b : Val)
  | beforeUnLimit (v : Val)
  | afterUnLimit (v : Val)
  | unknown (tag : String) (payload : Val)

/-- Embedding of `convertDimensionRange` (src/unnamed/part_003, lines
29–47).  The source contains no `throw`: a length-1 array is `"Any"`
or `Single`, a length-2 array dispatches on `"-"` ends (first element
checked first), and every other value — including arrays of length 0
or ≥ 3 — hits the "fallback for backwards compatibility" branch
`{Single: range}`, wrapping the whole input. -/
def convertDimensionRange (range : Val) : Except String Wire :=
  match range with
  | .arr [a] => if isDashV a then .ok .anyTag else .ok (.single a)
  | .arr [a, b] =>
      if isDashV a then .ok (.beforeUnLimit b)
      else if isDashV b then .ok (.afterUnLimit a)
      else .ok (.limitRange a b)
  | r => .ok (.single r)

/-- Embedding of `convertFromWasmDimensionRange` (src/unnamed/part_003,
lines 54–78).  The source contains no `throw`: each of the five known
wire shapes is mapped back to its compact array notation, and any
other wire value hits the fallback `return ["-"]`. -/
def convertFromWasmDimensionRange (w : Wire) : Except String Val :=
  match w with
  | .anyTag => .ok (.arr [.str "-"])
  | .single v => .ok (.arr [v])
  | .limitRange a b => .ok (.arr [a, b])
  | .beforeUnLimit v => .ok (.arr [.str "-", v])
  | .afterUnLimit v => .ok (.arr [v, .str "-"])
  | .unknown _ _ => .ok (.arr [.str "-"])

/-- The five valid compact array notations of the `DimensionRange`
TypeScript type: `[v]`, `[lo,hi]`, `["-",hi]`, `[lo,"-"]`, `["-"]`
with numeric entries. -/
inductive ValidCompact : Val → Prop where
  | single (n : Int) : ValidCompact (.arr [.num n])
  | interval (a b : Int) : ValidCompact (.arr [.num a, .num b])
  | before (b : Int) : ValidCompact (.arr [.str "-", .num b])
  | after (a : Int) : ValidCompact (.arr [.num a, .str "-"])
  | anyN : ValidCompact (.arr [.str "-"])

/-- Wire dimension values of the five known shapes whose payloads are
numeric, i.e. well-typed `WasmDimensionRange<number>` values. -/
inductive NumericWire : Wire → Prop where
  | anyTag : NumericWire .anyTag
  | single (n : Int) : NumericWire (.single (.num n))
  | limitRange (a b : Int) : NumericWire (.limitRange (.num a) (.num b))
  | before (n : Int) : NumericWire (.beforeUnLimit (.num n))
  | after (n : Int) : NumericWire (.afterUnLimit (.num n))

/-- The caller-supplied `SpaceTimeId` object.  `z` is required by the
TypeScript type; at runtime each of `f`, `x`, `y`, `i`, `t` may be
absent (`none`, i.e. `undefined`) or hold any value. -/
structure SpaceTimeIdInput where
  z : Val
  f : Option Val
  x : Option Val
  y : Option Val
  i : Option Val
  t : Option Val

/-- The WASM-side space-time id object produced by `convertSpaceTimeId`:
`z` is copied, the four axes hold wire dimension values, and `i` holds
a runtime value. -/
structure WasmSTId where
  z : Val
  f : Wire
  x : Wire
  y : Wire
  i : Val
  t : Wire

/-- The conditional expression `id.f ? convertDimensionRange(id.f) : "Any"`
used for each of the `f`, `x`, `y`, `t` fields of `convertSpaceTimeId`:
an absent or falsy field yields the bare `"Any"` tag, a truthy one is
converted. -/
def dimFieldOrAny (o : Option Val) : Except String Wire :=
  match o with
  | some v => if truthy v then convertDimensionRange v else .ok .anyTag
  | none => .ok .anyTag

/-- The conditional expression `id.i ? id.i : 0` of `convertSpaceTimeId`. -/
def intervalOrZero (o : Option Val) : Val :=
  match o with
  | some v => if truthy v then v else .num 0
  | none => .num 0

/-- Embedding of `convertSpaceTimeId` (src/unnamed/part_003, lines
85–94).  Field presence is decided by truthiness, not key presence. -/
def convertSpaceTimeId (id : SpaceTimeIdInput) : Except String WasmSTId := do
  let f ← dimFieldOrAny id.f
  let x ← dimFieldOrAny id.x
  let y ← dimFieldOrAny id.y
  let t ← dimFieldOrAny id.t
  .ok ⟨id.z, f, x, y, intervalOrZero id.i, t⟩

/-- The decoded (standardized) space-time id produced by
`convertFromWasmSpaceTimeId`: every field holds a concrete runtime
value (the four axes hold compact dimension-range arrays). -/
structure DecodedSTId where
  z : Val
  f : Val
  x : Val
  y : Val
  i : Val
  t : Val

/-- Embedding of `convertFromWasmSpaceTimeId` (src/unnamed/part_003,
lines 101–112): per-field decode via `convertFromWasmDimensionRange`,
`z` and `i` copied. -/
def convertFromWasmSpaceTimeId (w : WasmSTId) : Except String DecodedSTId := do
  let f ← convertFromWasmDimensionRange w.f
  let x ← convertFromWasmDimensionRange w.x
  let y ← convertFromWasmDimensionRange w.y
  let t ← convertFromWasmDimensionRange w.t
  .ok ⟨w.z, f, x, y, w.i, t⟩

/-- Caller-supplied boolean filter: the four predicate shapes of the
`FilterBoolean` type, plus `unknown d` standing for any runtime object
carrying none of the known keys, `d` being its JSON rendering. -/
inductive FilterBooleanInput where
  | isTrue
  | isFalse
  | equals (b : Bool)
  | notEquals (b : Bool)
  | unknown (d : String)

/-- Caller-supplied integer filter: the nine predicate shapes of the
`FilterInt` type plus an unknown shape.  `inSet`/`notInSet` embed the
source's `in`/`notIn` keys. -/
inductive FilterIntInput where
  | equal (n : Int)
  | notEqual (n : Int)
  | greaterThan (n : Int)
  | greaterEqual (n : Int)
  | lessThan (n : Int)
  | lessEqual (n : Int)
  | between (a b : Int)
  | inSet (ns : List Int)
  | notInSet (ns : List Int)
  | unknown (d : String)

/-- Caller-supplied text filter: the seven predicate shapes of the
`FilterText` type plus an unknown shape. -/
inductive FilterTextInput where
  | equal (s : String)
  | notEqual (s : String)
  | contains (s : String)
  | notContains (s : String)
  | startsWith (s : String)
  | endsWith (s : String)
  | caseInsensitiveEqual (s : String)
  | unknown (d : String)

/-- A tagged wire variant produced by the filter converters: either a
bare string tag (`"IsTrue"`) or a one-key object `{Tag: payload}`. -/
inductive TagWire where
  | tagOnly (tag : String)
  | tagged (tag : String) (payload : Val)

/-- Embedding of `convertBooleanFilter` (src/unnamed/part_003, lines
197–203): key checks in source order, unknown shapes throw. -/
def convertBooleanFilter (filter : FilterBooleanInput) : Except String TagWire :=
  match filter with
  | .isTrue => .ok (.tagOnly "IsTrue")
  | .isFalse => .ok (.tagOnly "IsFalse")
  | .equals b => .ok (.tagged "Equals" (.bool b))
  | .notEquals b => .ok (.tagged "NotEquals" (.bool b))
  | .unknown d => .error ("Unknown boolean filter: " ++ d)

/-- Embedding of `convertIntFilter` (src/unnamed/part_003, lines
210–221). -/
def convertIntFilter (filter : FilterIntInput) : Except String TagWire :=
  match filter with
  | .equal n => .ok (.tagged "Equal" (.num n))
  | .notEqual n => .ok (.tagged "NotEqual" (.num n))
  | .greaterThan n => .ok (.tagged "GreaterThan" (.num n))
  | .greaterEqual n => .ok (.tagged "GreaterEqual" (.num n))
  | .lessThan n => .ok (.tagged "LessThan" (.num n))
  | .lessEqual n => .ok (.tagged "LessEqual" (.num n))
  | .between a b => .ok (.tagged "Between" (.arr [.num a, .num b]))
  | .inSet ns => .ok (.tagged "In" (.arr (ns.map Val.num)))
  | .notInSet ns => .ok (.tagged "NotIn" (.arr (ns.map Val.num)))
  | .unknown d => .error ("Unknown int filter: " ++ d)

/-- Embedding of `convertTextFilter` (src/unnamed/part_003, lines
228–238). -/
def convertTextFilter (filter : FilterTextInput) : Except String TagWire :=
  match filter with
  | .equal s => .ok (.tagged "Equal" (.str s))
  | .notEqual s => .ok (.tagged "NotEqual" (.str s))
  | .contains s => .ok (.tagged "Contains" (.str s))
  | .notContains s => .ok (.tagged "NotContains" (.str s))
  | .startsWith s => .ok (.tagged "StartsWith" (.str s))
  | .endsWith s => .ok (.tagged "EndsWith" (.str s))
  | .caseInsensitiveEqual s => .ok (.tagged "CaseInsensitiveEqual" (.str s))
  | .unknown d => .error ("Unknown text filter: " ++ d)

/-- The kind wrapper of a `Filter` value: `{boolean: f}`, `{int: f}` or
`{text: f}`; `unknownKind` stands for a truthy object carrying none of
the three kind keys (the source then leaves `filterValue.filter`
unset). -/
inductive FilterKindInput where
  | boolean (f : FilterBooleanInput)
  | int (f : FilterIntInput)
  | text (f : FilterTextInput)
  | unknownKind (d : String)

/-- Kind-tagged filter wire value: `{FilterBOOLEAN: w}`,
`{FilterINT: w}` or `{FilterTEXT: w}`. -/
inductive FilterWire where
  | filterBOOLEAN (w : TagWire)
  | filterINT (w : TagWire)
  | filterTEXT (w : TagWire)

/-- The `Filter` branch body of `convertRange`: dispatch on the kind
key (boolean, then int, then text); an absent filter or an unknown
kind leaves the wire `filter` field unset. -/
def convertFilterField (f : Option FilterKindInput) : Except String (Option FilterWire) :=
  match f with
  | none => .ok none
  | some (.boolean bf) => do
      let w ← convertBooleanFilter bf
      .ok (some (.filterBOOLEAN w))
  | some (.int nf) => do
      let w ← convertIntFilter nf
      .ok (some (.filterINT w))
  | some (.text tf) => do
      let w ← convertTextFilter tf
      .ok (some (.filterTEXT w))
  | some (.unknownKind _) => .ok none

/-- A caller-supplied `Range` expression.  The source dispatches on
which key the object carries; the inductive constructors model the
mutually exclusive shapes of the `Range` union type.  `stid` with a
non-numeric `z` falls through every key check and throws. -/
inductive RangeInput where
  | stid (id : SpaceTimeIdInput)
  | or (cs : List RangeInput)
  | and (cs : List RangeInput)
  | xor (cs : List RangeInput)
  | not (cs : List RangeInput)
  | filter (space key : String) (f : Option FilterKindInput)
  | hasValue (space key : String)

/-- The engine's wire form of a range expression.
`spaceTimeIdSet ids` is `{SpaceTimeIdSet: ids}`; `prefixOp op cs` is
`{Prefix: {<op>: cs}}` with `op` one of `"OR" "AND" "XOR" "NOT"`;
`filterValue s k f` is `{Function: {FilterValue: {spacename: s,
keyname: k, filter?: f}}}`; `hasValue s k` is
`{Function: {HasValue: {spacename: s, keyname: k}}}`. -/
inductive WireRange where
  | spaceTimeIdSet (ids : List WasmSTId)
  | prefixOp (op : String) (cs : List WireRange)
  | filterValue (spacename keyname : String) (filter : Option FilterWire)
  | hasValue (spacename keyname : String)

mutual

/-- Embedding of `convertRange` (src/unnamed/part_003, lines 128–190).
A leaf with numeric `z` becomes a one-element `SpaceTimeIdSet`; each
combinator key maps to the matching `Prefix` tag over the recursively
converted children in order; `Filter` and `HasValue` become `Function`
leaves; anything else throws `Unknown range type` (the source appends
the JSON of the offending input to the message). -/
def convertRange (range : RangeInput) : Except String WireRange :=
  match range with
  | .stid id =>
      match id.z with
      | .num _ => do
          let w ← convertSpaceTimeId id
          .ok (.spaceTimeIdSet [w])
      | _ => .error "Unknown range type"
  | .or cs => do
      let ws ← convertRangeList cs
      .ok (.prefixOp "OR" ws)
  | .and cs => do
      let ws ← convertRangeList cs
      .ok (.prefixOp "AND" ws)
  | .xor cs => do
      let ws ← convertRangeList cs
      .ok (.prefixOp "XOR" ws)
  | .not cs => do
      let ws ← convertRangeList cs
      .ok (.prefixOp "NOT" ws)
  | .filter space key f => do
      let fw ← convertFilterField f
      .ok (.filterValue space key fw)
  | .hasValue space key => .ok (.hasValue space key)

/-- Left-to-right conversion of a combinator's children, the embedding
of `range.OR.map(convertRange)`: the first throwing child aborts the
whole conversion, as a thrown exception does in the source. -/
def convertRangeList (cs : List RangeInput) : Except String (List WireRange) :=
  match cs with
  | [] => .ok []
  | c :: rest => do
      let w ← convertRange c
      let ws ← convertRangeList rest
      .ok (w :: ws)

end

/-- The request envelope `{command: [command]}` built by
`executeCommand` before serialization. -/
structure Envelope where
  command : List Val

/-- One element of the engine's JSON-array reply: `{Success: out}` or
`{Error: msg}`. -/
inductive CommandResult where
  | success (out : Val)
  | error (msg : String)

/-- The observable outcome of `executeCommand`: the returned `Success`
payload, a thrown `Error(msg)` carrying the engine's message, or the
`TypeError` the `"Error" in res_json` check raises when the reply
array is empty (element `[0]` is `undefined`). -/
inductive ExecResult where
  | success (out : Val)
  | commandError (msg : String)
  | typeError

/-- Embedding of `Kasane.executeCommand` (src/src/kasane.ts, lines
220–247).  JSON serialization at the engine boundary is elided: the
engine is abstracted as a function from the parsed envelope to the
parsed reply array.  The method wraps the command in `{command:
[command]}`, reads element `[0]` of the reply, throws the message of
an `{Error: msg}` element verbatim, and returns the payload of a
`{Success: out}` element unmodified. -/
def executeCommand (engine : Envelope → List CommandResult) (command : Val) : ExecResult :=
  match engine ⟨[command]⟩ with
  | [] => .typeError
  | .error msg :: _ => .commandError msg
  | .success out :: _ => .success out

/-- The expression `wasmOutput.id_string || undefined`:
an absent or empty (falsy) string becomes `undefined`. -/
def jsStringOrNone (o : Option String) : Option String :=
  match o with
  | some s => if s = "" then none else some s
  | none => none

/-- The expression `wasmOutput.center || undefined` applied to an
optional runtime value. -/
def jsValOrNone (o : Option Val) : Option Val :=
  match o with
  | some v => if truthy v then some v else none
  | none => none

/-- The per-point length check inside `convertVertex`'s `map`:
the first point that is not exactly 3 coordinates throws. -/
def checkVertexPoints (ps : List (List Val)) : Except String Unit :=
  match ps with
  | [] => .ok ()
  | p :: rest =>
      if p.length ≠ 3 then
        .error ("Invalid vertex point length: expected 3, got " ++ toString p.length)
      else checkVertexPoints rest

/-- Embedding of `convertVertex` (src/src/commands/query.ts):
`undefined`/`null` vertex passes through as `undefined`; a present
vertex must be exactly 8 points of exactly 3 coordinates each, any
other shape throws. -/
def convertVertex (wv : Option (List (List Val))) : Except String (Option (List (List Val))) :=
  match wv with
  | none => .ok none
  | some vs =>
      if vs.length ≠ 8 then
        .error ("Invalid vertex length: expected 8, got " ++ toString vs.length)
      else do
        checkVertexPoints vs
        .ok (some vs)

/-- A raw `GetValue` record as returned by the engine
(`WasmGetValueOutput`): the `value` field holds the engine's
kind-tagged wrapper, e.g. `{INT: 25}`. -/
structure WasmGetValueRecord where
  spacetimeid : WasmSTId
  id_string : Option String
  vertex : Option (List (List Val))
  center : Option Val
  value : Val

/-- The decoded record (`GetValueOutput`) built by
`ValueCommandsImpl.getValue`.  Its `value` field is declared in the
source as a plain scalar (`ValueEntry`), but the implementation stores
`wasmOutput.value` there unchanged, so at runtime it holds whatever
the engine sent. -/
structure GetValueRecord where
  spacetimeid : DecodedSTId
  id_string : Option String
  vertex : Option (List (List Val))
  center : Option Val
  value : Val

/-- Embedding of the per-record mapping inside
`ValueCommandsImpl.getValue` (src/src/commands/value.ts, lines
237–269): the space-time id is decoded, `id_string`/`center` are
normalized with `|| undefined`, the vertex is shape-checked, and the
`value` field is copied verbatim from the wire record. -/
def convertGetValueRecord (w : WasmGetValueRecord) : Except String GetValueRecord := do
  let stid ← convertFromWasmSpaceTimeId w.spacetimeid
  let vtx ← convertVertex w.vertex
  .ok ⟨stid, jsStringOrNone w.id_string, vtx, jsValOrNone w.center, w.value⟩

/-- Modelled from the spec (§4.6): the unwrapping of the kind-tagged
value wrapper `{INT:n} | {TEXT:s} | {BOOLEAN:b}` into a plain scalar,
which the spec asserts `getValue` performs.  No unwrapping code exists
anywhere in the repository; this definition captures the spec's words
for comparison with the implementation. -/
def unwrapValueWrapper (v : Val) : Option Val :=
  match v with
  | .obj [("INT", .num n)] => some (.num n)
  | .obj [("TEXT", .str s)] => some (.str s)
  | .obj [("BOOLEAN", .bool b)] => some (.bool b)
  | _ => none

/-- The character-list form of `version.split(".")`: splitting on the
dot character, with JavaScript semantics (an empty string yields one
empty component, a trailing dot yields a trailing empty component). -/
def splitOnDot (cs : List Char) : List (List Char) :=
  match cs with
  | [] => [[]]
  | c :: rest =>
      if c = '.' then [] :: splitOnDot rest
      else
        match splitOnDot rest with
        | [] => [[c]]
        | g :: gs => (c :: g) :: gs

/-- The expression `parseInt(part, 10) || 0` applied to one version
component: the decimal value of the leading digit run, and `0` when
there is none (`parseInt` returns `NaN`, which `|| 0` replaces). -/
def parseIntOr0 (cs : List Char) : Int :=
  ((cs.takeWhile Char.isDigit).foldl (fun acc c => acc * 10 + (c.toNat - 48)) 0 : Nat)

/-- The `parseVersion` helper of `Kasane.isVersionInRange`
(src/src/kasane.ts, lines 182–211):
`v.split(".").map((part) => parseInt(part, 10) || 0)`. -/
def parseVersion (v : String) : List Int :=
  (splitOnDot v.data).map parseIntOr0

/-- The comparison loop of `compareVersions` once the first list is
exhausted: each remaining component of the second list is compared
against `0`; the first nonzero one decides. -/
def compareWithZeros (v2 : List Int) : Int :=
  match v2 with
  | [] => 0
  | y :: ys => if 0 ≠ y then 0 - y else compareWithZeros ys

/-- The `compareVersions` helper of `Kasane.isVersionInRange`:
component-wise comparison up to the longer length, missing trailing
components read as `0`; the first differing pair decides with its
difference, equality gives `0`. -/
def compareVersions (v1 v2 : List Int) : Int :=
  match v1 with
  | [] => compareWithZeros v2
  | x :: xs =>
      if x ≠ v2.headD 0 then x - v2.headD 0 else compareVersions xs v2.tail

/-- Embedding of `Kasane.isVersionInRange` (src/src/kasane.ts, lines
182–211): the version is in range iff it compares `≥ 0` against the
minimum and `≤ 0` against the maximum — both bounds inclusive. -/
def isVersionInRange (version minVersion maxVersion : String) : Bool :=
  let versionParts := parseVersion version
  let minParts := parseVersion minVersion
  let maxParts := parseVersion maxVersion
  decide (0 ≤ compareVersions versionParts minParts) &&
    decide (compareVersions versionParts maxParts ≤ 0)

/-- Truthiness of an optional runtime value: an absent field
(`undefined`) is falsy. -/
def truthyOpt (o : Option Val) : Bool :=
  match o with
  | some v => truthy v
  | none => false

/-- A concrete raw `GetValue` record: the engine reports the stored
integer `25` as the kind-tagged wrapper `{INT: 25}` on an
unconstrained id at zoom 3. -/
def sampleWasmGetValueRecord : WasmGetValueRecord :=
  ⟨⟨.num 3, .anyTag, .anyTag, .anyTag, .num 0, .anyTag⟩, none, none, none,
   .obj [("INT", .num 25)]⟩

/-- Claim C1 (counterexample): the claim predicts an
`EncodingError("invalid dimension range")` for the length-2 array with
both ends `"-"`, but `convertDimensionRange` raises nothing on
`["-","-"]`: it returns the `BeforeUnLimitRange` wire value whose
payload is the string `"-"`. -/
theorem convertDimensionRange_dashes_no_error :
    convertDimensionRange (.arr [.str "-", .str "-"]) = .ok (.beforeUnLimit (.str "-")) := rfl

/-- Claim C1 (amended): for the five valid compact notations
`convertDimensionRange` produces exactly the variant predicted by the
§4.1 rules, but invalid arrays never raise: any array of length other
than 1 or 2 falls back to `{Single: <the whole array>}`, and
`["-","-"]` (covered by `convertDimensionRange_dashes_no_error`'s
statement shape) yields `BeforeUnLimitRange "-"`. -/
theorem convertDimensionRange_spec :
    (∀ n : Int, convertDimensionRange (.arr [.num n]) = .ok (.single (.num n))) ∧
    (∀ a b : Int, convertDimensionRange (.arr [.num a, .num b]) =
      .ok (.limitRange (.num a) (.num b))) ∧
    (∀ b : Int, convertDimensionRange (.arr [.str "-", .num b]) =
      .ok (.beforeUnLimit (.num b))) ∧
    (∀ a : Int, convertDimensionRange (.arr [.num a, .str "-"]) =
      .ok (.afterUnLimit (.num a))) ∧
    convertDimensionRange (.arr [.str "-"]) = .ok .anyTag ∧
    (∀ xs : List Val, xs.length ≠ 1 → xs.length ≠ 2 →
      convertDimensionRange (.arr xs) = .ok (.single (.arr xs))) := by
  refine ⟨fun n => rfl, fun a b => rfl, fun b => rfl, fun a => rfl, rfl, ?_⟩
  intro xs h1 h2
  match xs with
  | [] => rfl
  | [a] => exact absurd rfl h1
  | [a, b] => exact absurd rfl h2
  | a :: b :: c :: rest => rfl

/-- Claim C1 (witness for the amended theorem): the empty array, a
concrete invalid notation, encodes without error to the fallback
`{Single: []}`. -/
theorem convertDimensionRange_spec_witness :
    convertDimensionRange (.arr []) = .ok (.single (.arr [])) :=
  convertDimensionRange_spec.2.2.2.2.2 [] (by decide) (by decide)

/-- Claim C3 (counterexample): a wire value carrying an unrecognized
tag (here `{Bogus: 1}`) does not make `convertFromWasmDimensionRange`
fail with a `DecodingError`; it decodes to the fallback `["-"]`. -/
theorem convertFromWasmDimensionRange_unknown_no_error :
    convertFromWasmDimensionRange (.unknown "Bogus" (.num 1)) = .ok (.arr [.str "-"]) := rfl

/-- Claim C3 (amended): on each of the five known wire shapes with
numeric payloads, `convertFromWasmDimensionRange` is the inverse of
the encoding (re-encoding its output restores the wire value), but an
unrecognized wire tag never raises a `DecodingError`: it decodes to
the fallback `["-"]` (the `Any` notation). -/
theorem convertFromWasmDimensionRange_spec :
    convertFromWasmDimensionRange .anyTag = .ok (.arr [.str "-"]) ∧
    (∀ v : Val, convertFromWasmDimensionRange (.single v) = .ok (.arr [v])) ∧
    (∀ a b : Val, convertFromWasmDimensionRange (.limitRange a b) = .ok (.arr [a, b])) ∧
    (∀ v : Val, convertFromWasmDimensionRange (.beforeUnLimit v) = .ok (.arr [.str "-", v])) ∧
    (∀ v : Val, convertFromWasmDimensionRange (.afterUnLimit v) = .ok (.arr [v, .str "-"])) ∧
    (∀ w : Wire, NumericWire w →
      (convertFromWasmDimensionRange w).bind convertDimensionRange = .ok w) ∧
    (∀ (tag : String) (payload : Val),
      convertFromWasmDimensionRange (.unknown tag payload) = .ok (.arr [.str "-"])) := by
  refine ⟨rfl, fun v => rfl, fun a b => rfl, fun v => rfl, fun v => rfl, ?_, fun t p => rfl⟩
  intro w hw
  cases hw with
  | anyTag => rfl
  | single n => rfl
  | limitRange a b => rfl
  | before n => rfl
  | after n => rfl

/-- Claim C3 (witness for the amended theorem): the `{Single: 7}` wire
value decodes to `[7]`, which re-encodes to `{Single: 7}`. -/
theorem convertFromWasmDimensionRange_spec_witness :
    (convertFromWasmDimensionRange (.single (.num 7))).bind convertDimensionRange =
      .ok (.single (.num 7)) :=
  convertFromWasmDimensionRange_spec.2.2.2.2.2.1 (.single (.num 7)) (NumericWire.single 7)

/-- Claim C7: for every valid compact dimension-range notation —
`[v]`, `[lo,hi]`, `["-",hi]`, `[lo,"-"]`, `["-"]` — decoding the
encoding gives the notation back:
`convertFromWasmDimensionRange (convertDimensionRange x) = x`. -/
theorem dimensionRange_roundtrip :
    ∀ v : Val, ValidCompact v →
      (convertDimensionRange v).bind convertFromWasmDimensionRange = .ok v := by
  intro v hv
  cases hv with
  | single n => rfl
  | interval a b => rfl
  | before b => rfl
  | after a => rfl
  | anyN => rfl

/-- Claim C7 (witness): the concrete notation `["-", 5]` round-trips. -/
theorem dimensionRange_roundtrip_witness :
    (convertDimensionRange (.arr [.str "-", .num 5])).bind convertFromWasmDimensionRange =
      .ok (.arr [.str "-", .num 5]) :=
  dimensionRange_roundtrip (.arr [.str "-", .num 5]) (ValidCompact.before 5)

/-- Claim C4 (counterexample): encoding `Filter{space:"s", key:"k"}`
with the filter omitted does not produce the `HasValue` wire form —
the two encodings are different wire values (`{Function: {FilterValue:
…}}` with no `filter` field versus `{Function: {HasValue: …}}`). -/
theorem filter_omitted_differs_from_hasValue :
    convertRange (.filter "s" "k" none) ≠ convertRange (.hasValue "s" "k") := by
  simp [convertRange, convertFilterField, Bind.bind, Except.bind]

/-- Claim C4 (amended): a `Filter` leaf whose `filter` field is
omitted encodes to a `FilterValue` wire leaf carrying the space and
key with no filter condition — an existence probe — and this wire
form is distinct from the wire form `HasValue` encodes to; the intent
does not fold into the `HasValue` wire shape (any equivalence of the
two probes is the engine's business, outside this layer). -/
theorem filter_omitted_encodes_existence_probe :
    ∀ space key : String,
      convertRange (.filter space key none) = .ok (.filterValue space key none) ∧
      convertRange (.hasValue space key) = .ok (.hasValue space key) ∧
      WireRange.filterValue space key none ≠ WireRange.hasValue space key := by
  intro space key
  refine ⟨?_, ?_, ?_⟩
  · simp [convertRange, convertFilterField, Bind.bind, Except.bind]
  · simp [convertRange]
  · intro h
    exact WireRange.noConfusion h

/-- Claim C5: `executeCommand` submits the envelope
`{command: [command]}` to the engine and reads element `[0]` of the
reply: an `{Error: msg}` first element makes it throw an error whose
message is exactly `msg`, and a `{Success: out}` first element makes
it return `out` unmodified. -/
theorem executeCommand_spec :
    ∀ (engine : Envelope → List CommandResult) (command : Val),
      (∀ (msg : String) (rest : List CommandResult),
        engine ⟨[command]⟩ = CommandResult.error msg :: rest →
        executeCommand engine command = .commandError msg) ∧
      (∀ (out : Val) (rest : List CommandResult),
        engine ⟨[command]⟩ = CommandResult.success out :: rest →
        executeCommand engine command = .success out) := by
  intro engine command
  constructor
  · intro msg rest h
    unfold executeCommand
    rw [h]
  · intro out rest h
    unfold executeCommand
    rw [h]

/-- Claim C5 (witness): on the reply `[{"Error":"key not found"}]` the
gateway throws with message exactly `"key not found"`. -/
theorem executeCommand_spec_witness :
    executeCommand (fun _ => [CommandResult.error "key not found"]) (.str "Version") =
      .commandError "key not found" :=
  (executeCommand_spec (fun _ => [CommandResult.error "key not found"]) (.str "Version")).1
    "key not found" [] rfl

/-- Components equal makes `compareVersions` return `0`. -/
theorem compareVersions_self (v : List Int) : compareVersions v v = 0 := by
  induction v with
  | nil => rfl
  | cons x xs ih => simp [compareVersions, ih]

/-- Claim C6: the version-in-range check is component-wise on the
dotted integers with missing trailing components read as `0` and both
bounds inclusive: `"0.0.1"` is inside `["0.0.1","0.0.1"]`, `"0.1.0"`
is outside it, `"0.0.1.5"` and `"0.0.1"` agree on their first three
components (which compare equal), and every version is inside the
degenerate range bounded by itself on both sides. -/
theorem isVersionInRange_spec :
    isVersionInRange "0.0.1" "0.0.1" "0.0.1" = true ∧
    isVersionInRange "0.1.0" "0.0.1" "0.0.1" = false ∧
    (parseVersion "0.0.1.5").take 3 = (parseVersion "0.0.1").take 3 ∧
    compareVersions ((parseVersion "0.0.1.5").take 3) ((parseVersion "0.0.1").take 3) = 0 ∧
    (∀ v : String, isVersionInRange v v v = true) := by
  refine ⟨by decide, by decide, by decide, by decide, ?_⟩
  intro v
  simp [isVersionInRange, compareVersions_self]

/-- A `Forall₂` table of child conversions determines the sequential
conversion of a child list. -/
theorem convertRangeList_ok :
    ∀ {cs : List RangeInput} {ws : List WireRange},
      List.Forall₂ (fun c w => convertRange c = Except.ok w) cs ws →
      convertRangeList cs = Except.ok ws := by
  intro cs ws h
  induction h with
  | nil => rfl
  | cons hcw _ ih => simp [convertRangeList, hcw, ih, Bind.bind, Except.bind]

/-- Claim C8: range-expression encoding is a structure-preserving
homomorphism on the combinators — whenever the children `cs` encode
pointwise, in order, to `ws`, each combinator node encodes to the
matching wire tag applied to exactly `ws`. -/
theorem convertRange_combinator_hom :
    ∀ (cs : List RangeInput) (ws : List WireRange),
      List.Forall₂ (fun c w => convertRange c = Except.ok w) cs ws →
      convertRange (.or cs) = .ok (.prefixOp "OR" ws) ∧
      convertRange (.and cs) = .ok (.prefixOp "AND" ws) ∧
      convertRange (.xor cs) = .ok (.prefixOp "XOR" ws) ∧
      convertRange (.not cs) = .ok (.prefixOp "NOT" ws) := by
  intro cs ws h
  have hl := convertRangeList_ok h
  refine ⟨?_, ?_, ?_, ?_⟩ <;> simp [convertRange, hl, Bind.bind, Except.bind]

/-- Claim C8 (witness): encoding the depth-3 tree
`{AND:[{OR:[A,B]},{NOT:[C]}]}` (with `HasValue` leaves `A`, `B`, `C`)
yields a wire tree whose nesting and child order mirror the input. -/
theorem convertRange_combinator_hom_witness :
    convertRange (.and [.or [.hasValue "a" "k", .hasValue "b" "k"],
        .not [.hasValue "c" "k"]]) =
      .ok (.prefixOp "AND" [.prefixOp "OR" [.hasValue "a" "k", .hasValue "b" "k"],
        .prefixOp "NOT" [.hasValue "c" "k"]]) := by
  refine (convertRange_combinator_hom _ _ ?_).2.1
  refine List.Forall₂.cons ?_ (List.Forall₂.cons ?_ List.Forall₂.nil)
  · exact (convertRange_combinator_hom [.hasValue "a" "k", .hasValue "b" "k"] _
      (List.Forall₂.cons (by simp [convertRange])
        (List.Forall₂.cons (by simp [convertRange]) List.Forall₂.nil))).1
  · exact (convertRange_combinator_hom [.hasValue "c" "k"] _
      (List.Forall₂.cons (by simp [convertRange]) List.Forall₂.nil)).2.2.2

/-- Claim C9: each of the 20 filter predicate shapes (4 boolean, 9
int, 7 text) encodes to its documented wire tag — the tags within each
kind pairwise distinct — and a payload matching none of its kind's
known shapes raises an error naming the offending payload. -/
theorem filter_encoding_spec :
    convertBooleanFilter .isTrue = .ok (.tagOnly "IsTrue") ∧
    convertBooleanFilter .isFalse = .ok (.tagOnly "IsFalse") ∧
    (∀ b, convertBooleanFilter (.equals b) = .ok (.tagged "Equals" (.bool b))) ∧
    (∀ b, convertBooleanFilter (.notEquals b) = .ok (.tagged "NotEquals" (.bool b))) ∧
    (∀ n, convertIntFilter (.equal n) = .ok (.tagged "Equal" (.num n))) ∧
    (∀ n, convertIntFilter (.notEqual n) = .ok (.tagged "NotEqual" (.num n))) ∧
    (∀ n, convertIntFilter (.greaterThan n) = .ok (.tagged "GreaterThan" (.num n))) ∧
    (∀ n, convertIntFilter (.greaterEqual n) = .ok (.tagged "GreaterEqual" (.num n))) ∧
    (∀ n, convertIntFilter (.lessThan n) = .ok (.tagged "LessThan" (.num n))) ∧
    (∀ n, convertIntFilter (.lessEqual n) = .ok (.tagged "LessEqual" (.num n))) ∧
    (∀ a b, convertIntFilter (.between a b) = .ok (.tagged "Between" (.arr [.num a, .num b]))) ∧
    (∀ ns, convertIntFilter (.inSet ns) = .ok (.tagged "In" (.arr (ns.map Val.num)))) ∧
    (∀ ns, convertIntFilter (.notInSet ns) = .ok (.tagged "NotIn" (.arr (ns.map Val.num)))) ∧
    (∀ s, convertTextFilter (.equal s) = .ok (.tagged "Equal" (.str s))) ∧
    (∀ s, convertTextFilter (.notEqual s) = .ok (.tagged "NotEqual" (.str s))) ∧
    (∀ s, convertTextFilter (.contains s) = .ok (.tagged "Contains" (.str s))) ∧
    (∀ s, convertTextFilter (.notContains s) = .ok (.tagged "NotContains" (.str s))) ∧
    (∀ s, convertTextFilter (.startsWith s) = .ok (.tagged "StartsWith" (.str s))) ∧
    (∀ s, convertTextFilter (.endsWith s) = .ok (.tagged "EndsWith" (.str s))) ∧
    (∀ s, convertTextFilter (.caseInsensitiveEqual s) =
      .ok (.tagged "CaseInsensitiveEqual" (.str s))) ∧
    (∀ d, convertBooleanFilter (.unknown d) = .error ("Unknown boolean filter: " ++ d)) ∧
    (∀ d, convertIntFilter (.unknown d) = .error ("Unknown int filter: " ++ d)) ∧
    (∀ d, convertTextFilter (.unknown d) = .error ("Unknown text filter: " ++ d)) :=
  ⟨rfl, rfl, fun _ => rfl, fun _ => rfl, fun _ => rfl, fun _ => rfl, fun _ => rfl,
   fun _ => rfl, fun _ => rfl, fun _ => rfl, fun _ _ => rfl, fun _ => rfl, fun _ => rfl,
   fun _ => rfl, fun _ => rfl, fun _ => rfl, fun _ => rfl, fun _ => rfl, fun _ => rfl,
   fun _ => rfl, fun _ => rfl, fun _ => rfl, fun _ => rfl⟩

/-- `convertDimensionRange` contains no `throw`: every input encodes
to some wire value. -/
theorem convertDimensionRange_isOk (v : Val) : ∃ w, convertDimensionRange v = Except.ok w := by
  match v with
  | .num n => exact ⟨_, rfl⟩
  | .str s => exact ⟨_, rfl⟩
  | .bool b => exact ⟨_, rfl⟩
  | .obj fs => exact ⟨_, rfl⟩
  | .arr [] => exact ⟨_, rfl⟩
  | .arr [a] => cases hda : isDashV a <;> simp [convertDimensionRange, hda]
  | .arr [a, b] =>
      cases hda : isDashV a <;> cases hdb : isDashV b <;>
        simp [convertDimensionRange, hda, hdb]
  | .arr (a :: b :: c :: rest) => exact ⟨_, rfl⟩

/-- Each axis field of `convertSpaceTimeId` evaluates without error. -/
theorem dimFieldOrAny_isOk (o : Option Val) : ∃ w, dimFieldOrAny o = Except.ok w := by
  cases o with
  | none => exact ⟨_, rfl⟩
  | some v =>
      cases ht : truthy v
      · exact ⟨Wire.anyTag, by simp [dimFieldOrAny, ht]⟩
      · obtain ⟨w, hw⟩ := convertDimensionRange_isOk v
        exact ⟨w, by simp [dimFieldOrAny, ht, hw]⟩

/-- A falsy (or absent) axis field yields the bare `"Any"` tag. -/
theorem dimFieldOrAny_falsy (o : Option Val) (h : truthyOpt o = false) :
    dimFieldOrAny o = Except.ok .anyTag := by
  cases o with
  | none => rfl
  | some v =>
      simp [truthyOpt] at h
      simp [dimFieldOrAny, h]

/-- A falsy (or absent) `i` field yields the default `0`. -/
theorem intervalOrZero_falsy (o : Option Val) (h : truthyOpt o = false) :
    intervalOrZero o = .num 0 := by
  cases o with
  | none => rfl
  | some v =>
      simp [truthyOpt] at h
      simp [intervalOrZero, h]

/-- How `convertSpaceTimeId` assembles its output from the per-field
conversions. -/
theorem convertSpaceTimeId_eq (id : SpaceTimeIdInput) (wf wx wy wt : Wire)
    (hf : dimFieldOrAny id.f = Except.ok wf) (hx : dimFieldOrAny id.x = Except.ok wx)
    (hy : dimFieldOrAny id.y = Except.ok wy) (ht : dimFieldOrAny id.t = Except.ok wt) :
    convertSpaceTimeId id = Except.ok ⟨id.z, wf, wx, wy, intervalOrZero id.i, wt⟩ := by
  simp [convertSpaceTimeId, hf, hx, hy, ht, Bind.bind, Except.bind]

/-- Claim C10: `convertSpaceTimeId` decides whether each of `f`, `x`,
`y`, `t`, `i` is present by JavaScript truthiness, not key presence —
every falsy field value is replaced by the default (`"Any"` for the
axes, `0` for `i`); in particular an id whose `x` field is the bare
number `0` encodes that axis as `"Any"`, not as a `Single 0`
constraint. -/
theorem convertSpaceTimeId_truthiness :
    ∀ id : SpaceTimeIdInput,
      (truthyOpt id.f = false → (convertSpaceTimeId id).map WasmSTId.f = .ok .anyTag) ∧
      (truthyOpt id.x = false → (convertSpaceTimeId id).map WasmSTId.x = .ok .anyTag) ∧
      (truthyOpt id.y = false → (convertSpaceTimeId id).map WasmSTId.y = .ok .anyTag) ∧
      (truthyOpt id.t = false → (convertSpaceTimeId id).map WasmSTId.t = .ok .anyTag) ∧
      (truthyOpt id.i = false → (convertSpaceTimeId id).map WasmSTId.i = .ok (.num 0)) ∧
      (id.x = some (.num 0) → (convertSpaceTimeId id).map WasmSTId.x = .ok .anyTag) := by
  intro id
  obtain ⟨wf, hf⟩ := dimFieldOrAny_isOk id.f
  obtain ⟨wx, hx⟩ := dimFieldOrAny_isOk id.x
  obtain ⟨wy, hy⟩ := dimFieldOrAny_isOk id.y
  obtain ⟨wt, ht⟩ := dimFieldOrAny_isOk id.t
  have heq := convertSpaceTimeId_eq id wf wx wy wt hf hx hy ht
  refine ⟨?_, ?_, ?_, ?_, ?_, ?_⟩
  · intro hfal
    injection (hf.symm.trans (dimFieldOrAny_falsy id.f hfal)) with h1
    subst h1
    rw [heq]; rfl
  · intro hfal
    injection (hx.symm.trans (dimFieldOrAny_falsy id.x hfal)) with h1
    subst h1
    rw [heq]; rfl
  · intro hfal
    injection (hy.symm.trans (dimFieldOrAny_falsy id.y hfal)) with h1
    subst h1
    rw [heq]; rfl
  · intro hfal
    injection (ht.symm.trans (dimFieldOrAny_falsy id.t hfal)) with h1
    subst h1
    rw [heq]; rfl
  · intro hfal
    rw [heq, intervalOrZero_falsy id.i hfal]
    rfl
  · intro hx0
    have hfal : truthyOpt id.x = false := by rw [hx0]; rfl
    injection (hx.symm.trans (dimFieldOrAny_falsy id.x hfal)) with h1
    subst h1
    rw [heq]; rfl

/-- Claim C10 (witness): a concrete id whose `x` is the bare number
`0` (and whose `f`, `i` are absent) encodes `x` as `"Any"`. -/
theorem convertSpaceTimeId_truthiness_witness :
    (convertSpaceTimeId ⟨.num 3, none, some (.num 0), some (.num 5), none,
        some (.num 7)⟩).map WasmSTId.x = .ok .anyTag :=
  (convertSpaceTimeId_truthiness ⟨.num 3, none, some (.num 0), some (.num 5), none,
    some (.num 7)⟩).2.2.2.2.2 rfl

/-- Claim C2 (code evaluated at the failing input): decoding a
`GetValue` record whose wire `value` is the kind-tagged wrapper
`{INT: 25}` stores the wrapper object itself — not the unwrapped
scalar `25` that the spec (and the record type's own declaration)
prescribe — in the record's `value` field. -/
theorem getValue_value_not_unwrapped :
    (convertGetValueRecord sampleWasmGetValueRecord).map GetValueRecord.value =
      .ok (.obj [("INT", .num 25)]) ∧
    unwrapValueWrapper (.obj [("INT", .num 25)]) = some (.num 25) ∧
    Val.obj [("INT", .num 25)] ≠ Val.num 25 :=
  ⟨rfl, rfl, fun h => Val.noConfusion h⟩
